import Mathlib

set_option maxRecDepth 8000

/-!
Verification development for the map-viewer component
(`src/components/map-view.tsx`): palette store, bulk palette
import/export, style theming engine, keyboard tick, capture pipeline,
search debounce, and selection-visibility tracking.

Strings are modelled as `List Char` (the inputs of interest are ASCII).
Numeric paint values are modelled as exact rationals.
-/

-- ═══════════════════════ Character helpers ═══════════════════════
-- ASCII models of the character classes appearing in the source's
-- regular expressions: [0-9a-fA-F], \w, \s, and String.toLowerCase.

def isHexChar (c : Char) : Bool :=
  ('0' ≤ c && c ≤ '9') || ('a' ≤ c && c ≤ 'f') || ('A' ≤ c && c ≤ 'F')

def isWordChar (c : Char) : Bool :=
  ('a' ≤ c && c ≤ 'z') || ('A' ≤ c && c ≤ 'Z') || ('0' ≤ c && c ≤ '9') || c = '_'

def toLowerAscii (c : Char) : Char :=
  if c = 'A' then 'a' else
  if c = 'B' then 'b' else
  if c = 'C' then 'c' else
  if c = 'D' then 'd' else
  if c = 'E' then 'e' else
  if c = 'F' then 'f' else
  if c = 'G' then 'g' else
  if c = 'H' then 'h' else
  if c = 'I' then 'i' else
  if c = 'J' then 'j' else
  if c = 'K' then 'k' else
  if c = 'L' then 'l' else
  if c = 'M' then 'm' else
  if c = 'N' then 'n' else
  if c = 'O' then 'o' else
  if c = 'P' then 'p' else
  if c = 'Q' then 'q' else
  if c = 'R' then 'r' else
  if c = 'S' then 's' else
  if c = 'T' then 't' else
  if c = 'U' then 'u' else
  if c = 'V' then 'v' else
  if c = 'W' then 'w' else
  if c = 'X' then 'x' else
  if c = 'Y' then 'y' else
  if c = 'Z' then 'z' else c

def isJsSpace (c : Char) : Bool :=
  c = ' ' || c = '\t' || c = '\n' || c = '\r' || c = '\x0b' || c = '\x0c'

/-- JS `String.prototype.trim` on ASCII input. -/
def jsTrim (l : List Char) : List Char :=
  ((l.dropWhile isJsSpace).reverse.dropWhile isJsSpace).reverse

def lowerStr (l : List Char) : List Char := l.map toLowerAscii

-- ═══════════════════════ Palette store ═══════════════════════
-- `DEFAULT_COLORS`, `ColorKey`, `COLOR_KEYS_IN_ORDER` from the source.

inductive ColorKey where
  | bg | water | waterLine
  | park | grass | wood | sand | glacier
  | residential | commercial | industrial | building | aeroway | boundary
  | motorway | motorwayCasing | trunk | trunkCasing
  | primary | primaryCasing | secondary | secondaryCasing
  | minor | minorCasing | path | rail
deriving DecidableEq, Fintype

/-- The palette object: every key always carries a value. -/
def Palette : Type := ColorKey → List Char

instance : DecidableEq Palette :=
  fun p q => decidable_of_iff (∀ k, p k = q k) (by
    constructor
    · intro h; funext k; exact h k
    · intro h k; rw [h])

def DEFAULT_COLORS : Palette := fun k =>
  match k with
  | .bg              => "#e8edda".toList
  | .water           => "#7ec8e3".toList
  | .waterLine       => "#68b8d8".toList
  | .park            => "#c0d490".toList
  | .grass           => "#c8d9a0".toList
  | .wood            => "#a8c078".toList
  | .sand            => "#e8e0c0".toList
  | .glacier         => "#ddf0f8".toList
  | .residential     => "#e4e0d4".toList
  | .commercial      => "#dedad0".toList
  | .industrial      => "#d4cfc4".toList
  | .building        => "#d8d2c4".toList
  | .aeroway         => "#dcd8cc".toList
  | .boundary        => "#b8a888".toList
  | .motorway        => "#fcd577".toList
  | .motorwayCasing  => "#c8a030".toList
  | .trunk           => "#fce090".toList
  | .trunkCasing     => "#c8b040".toList
  | .primary         => "#ffffff".toList
  | .primaryCasing   => "#ccc8b8".toList
  | .secondary       => "#ffffff".toList
  | .secondaryCasing => "#d4d0c0".toList
  | .minor           => "#f4f2ec".toList
  | .minorCasing     => "#dcdad0".toList
  | .path            => "#d8d4c8".toList
  | .rail            => "#c8c4b8".toList

/-- `COLOR_GROUPS.flatMap(g => g.items.map(i => i.key))` — the fixed key
order used by serialization and bulk apply. -/
def COLOR_KEYS_IN_ORDER : List ColorKey :=
  [ .bg, .water, .waterLine,
    .park, .grass, .wood, .sand, .glacier,
    .residential, .commercial, .industrial, .building, .aeroway, .boundary,
    .motorway, .motorwayCasing, .trunk, .trunkCasing,
    .primary, .primaryCasing, .secondary, .secondaryCasing,
    .minor, .minorCasing, .path, .rail ]

/-- The object-spread update `setColors(prev => ({ ...prev, [key]: value }))`. -/
def setColor (p : Palette) (k : ColorKey) (v : List Char) : Palette :=
  fun k2 => if k2 = k then v else p k2

/-- The `^#[0-9a-fA-F]{3}$ | ^#[0-9a-fA-F]{6}$` guard in `handleHexChange`. -/
def isValidHex (v : List Char) : Bool :=
  match v with
  | '#' :: rest =>
      (decide (rest.length = 3) || decide (rest.length = 6)) && rest.all isHexChar
  | _ => false

/-- `handleHexChange` followed by `updateColor`: a guarded point update. -/
def handleHexUpdate (p : Palette) (k : ColorKey) (v : List Char) : Palette :=
  if isValidHex v then setColor p k v else p

/-- `copyPalette`: values of all keys in the fixed order, space-joined. -/
def serializePalette (p : Palette) : List Char :=
  List.intercalate [' '] (COLOR_KEYS_IN_ORDER.map p)

-- ═══════════════════════ Bulk apply parsing ═══════════════════════
-- `applyBulkString`: first-tier token scan `#[0-9a-fA-F]{3}(?:[0-9a-fA-F]{3})?\b`
-- (global, non-overlapping, greedy with backtracking from 6 to 3 digits),
-- then a fallback that strips non-hex characters and chunks by 6.

/-- Would the regex accept a 6-digit match starting right here? -/
def hex6Ok (rest : List Char) : Bool :=
  decide (6 ≤ rest.length) && (rest.take 6).all isHexChar &&
    (match rest.drop 6 with
     | [] => true
     | c :: _ => !(isWordChar c))

/-- Would the regex accept a 3-digit match starting right here? -/
def hex3Ok (rest : List Char) : Bool :=
  decide (3 ≤ rest.length) && (rest.take 3).all isHexChar &&
    (match rest.drop 3 with
     | [] => true
     | c :: _ => !(isWordChar c))

/-- Global scan of `raw.match(/#[0-9a-fA-F]{3}(?:[0-9a-fA-F]{3})?\b/g)`:
left-to-right, non-overlapping; at each `#` the greedy 6-digit alternative
is tried first, backtracking to 3 digits. (Structural recursion: when
`hex6Ok`/`hex3Ok` holds the list is long enough for the deep match, so the
fallback arms there are unreachable.) -/
def scanTokens : List Char → List (List Char)
  | [] => []
  | c :: rest =>
    if c = '#' && hex6Ok rest then
      match rest with
      | d1 :: d2 :: d3 :: d4 :: d5 :: d6 :: r6 =>
          ['#', d1, d2, d3, d4, d5, d6] :: scanTokens r6
      | _ => []
    else if c = '#' && hex3Ok rest then
      match rest with
      | d1 :: d2 :: d3 :: r3 => ['#', d1, d2, d3] :: scanTokens r3
      | _ => []
    else scanTokens rest

/-- `h.length === 4 ? expand-3-to-6 : h.toLowerCase()` applied to each match.
Matches produced by `scanTokens` are always a `#` followed by 3 or 6 hex
digits, so the length-4 case is exactly the 3-digit-token shape. -/
def normalizeToken (tok : List Char) : List Char :=
  match tok with
  | ['#', a, b, c] => ['#', a, a, b, b, c, c]
  | t => t.map toLowerAscii

/-- `stripped.match(/.{6}/g)`: consecutive 6-character groups, remainder dropped. -/
def chunk6 : List Char → List (List Char)
  | d1 :: d2 :: d3 :: d4 :: d5 :: d6 :: rest =>
      [d1, d2, d3, d4, d5, d6] :: chunk6 rest
  | _ => []

/-- The full two-tier extraction of `applyBulkString`:
`#`-prefixed tokens first; if none, strip non-hex chars and chunk by 6. -/
def hexesOf (raw : List Char) : List (List Char) :=
  let toks := (scanTokens raw).map normalizeToken
  if toks.isEmpty then
    (chunk6 (raw.filter isHexChar)).map (fun h => '#' :: lowerStr h)
  else toks

/-- `applyBulkString`: assign extracted tokens to the first keys in the
fixed order (truncated to the number of keys); zero tokens is a no-op. -/
def applyBulkString (p : Palette) (raw : List Char) : Palette :=
  let hexes := hexesOf raw
  if hexes.isEmpty then p
  else
    (COLOR_KEYS_IN_ORDER.zip (hexes.take COLOR_KEYS_IN_ORDER.length)).foldl
      (fun acc kv => setColor acc kv.1 kv.2) p

-- ═══════════════════════ Style theming engine ═══════════════════════
-- `applyAppleStyle(raw, C)`: drop symbol layers, then rewrite each
-- remaining layer's paint block by the classification chain.

/-- A paint property value: a color string or a numeric value (opacities). -/
inductive PaintValue where
  | str (s : List Char)
  | num (q : ℚ)
deriving DecidableEq

/-- A paint block: a JS object, i.e. an ordered association list with
unique keys. -/
abbrev Paint : Type := List (List Char × PaintValue)

/-- The object-spread-with-override `{ ...paint, key: v }`: an existing
key is overwritten in place, a new key is appended. -/
def setProp (p : Paint) (k : List Char) (v : PaintValue) : Paint :=
  if p.any (fun kv => kv.1 = k) then
    p.map (fun kv => if kv.1 = k then (k, v) else kv)
  else p ++ [(k, v)]

structure Layer where
  id : List Char
  sourceLayer : List Char
  type : List Char
  paint : Paint
deriving DecidableEq

/-- JS `String.prototype.includes`. -/
def includesStr (needle haystack : List Char) : Bool :=
  decide (needle <:+: haystack)

/-- The paint block produced for one (non-symbol) layer by the branch
chain of `applyAppleStyle`. `id` and `src` are the lowercased identifier
and source-layer; the type is compared verbatim, as in the source. -/
def themedPaint (C : Palette) (layer : Layer) : Paint :=
  let id := lowerStr layer.id
  let src := lowerStr layer.sourceLayer
  let t := layer.type
  let paint := layer.paint
  if t = "background".toList then
    [("background-color".toList, .str (C .bg))]
  else if src = "water".toList && t = "fill".toList then
    [("fill-color".toList, .str (C .water)), ("fill-opacity".toList, .num 1)]
  else if src = "waterway".toList && t = "line".toList then
    setProp paint ("line-color".toList) (.str (C .waterLine))
  else if src = "landcover".toList && t = "fill".toList then
    (if includesStr ("grass".toList) id || includesStr ("meadow".toList) id then
      setProp (setProp paint ("fill-color".toList) (.str (C .grass)))
        ("fill-opacity".toList) (.num (7/10))
    else if includesStr ("wood".toList) id || includesStr ("forest".toList) id
        || includesStr ("tree".toList) id then
      setProp (setProp paint ("fill-color".toList) (.str (C .wood)))
        ("fill-opacity".toList) (.num (8/10))
    else if includesStr ("sand".toList) id || includesStr ("beach".toList) id then
      setProp paint ("fill-color".toList) (.str (C .sand))
    else if includesStr ("glacier".toList) id || includesStr ("ice".toList) id
        || includesStr ("snow".toList) id then
      setProp paint ("fill-color".toList) (.str (C .glacier))
    else paint)
  else if src = "landuse".toList && t = "fill".toList then
    (if includesStr ("park".toList) id || includesStr ("garden".toList) id
        || includesStr ("recreation".toList) id || includesStr ("cemetery".toList) id
        || includesStr ("grass".toList) id then
      setProp (setProp paint ("fill-color".toList) (.str (C .park)))
        ("fill-opacity".toList) (.num (8/10))
    else if includesStr ("wood".toList) id || includesStr ("forest".toList) id then
      setProp (setProp paint ("fill-color".toList) (.str (C .wood)))
        ("fill-opacity".toList) (.num (7/10))
    else if includesStr ("residential".toList) id then
      setProp paint ("fill-color".toList) (.str (C .residential))
    else if includesStr ("commercial".toList) id || includesStr ("retail".toList) id then
      setProp paint ("fill-color".toList) (.str (C .commercial))
    else if includesStr ("industrial".toList) id then
      setProp paint ("fill-color".toList) (.str (C .industrial))
    else paint)
  else if (src = "park".toList || ("park".toList).isPrefixOf id) && t = "fill".toList then
    setProp (setProp paint ("fill-color".toList) (.str (C .park)))
      ("fill-opacity".toList) (.num (8/10))
  else if src = "building".toList then
    (if t = "fill".toList then
      [("fill-color".toList, .str (C .building)), ("fill-opacity".toList, .num 1)]
    else if t = "fill-extrusion".toList then
      [("fill-extrusion-color".toList, .str (C .building)),
       ("fill-extrusion-opacity".toList, .num (85/100))]
    else paint)
  else if src = "aeroway".toList && t = "fill".toList then
    setProp paint ("fill-color".toList) (.str (C .aeroway))
  else if src = "transportation".toList && t = "line".toList then
    (let casing := includesStr ("casing".toList) id || includesStr ("_case".toList) id
        || includesStr ("outline".toList) id
    if includesStr ("motorway".toList) id then
      setProp paint ("line-color".toList)
        (.str (if casing then C .motorwayCasing else C .motorway))
    else if includesStr ("trunk".toList) id then
      setProp paint ("line-color".toList)
        (.str (if casing then C .trunkCasing else C .trunk))
    else if includesStr ("primary".toList) id then
      setProp paint ("line-color".toList)
        (.str (if casing then C .primaryCasing else C .primary))
    else if includesStr ("secondary".toList) id || includesStr ("tertiary".toList) id then
      setProp paint ("line-color".toList)
        (.str (if casing then C .secondaryCasing else C .secondary))
    else if includesStr ("path".toList) id || includesStr ("track".toList) id
        || includesStr ("pedestrian".toList) id || includesStr ("footway".toList) id
        || includesStr ("cycleway".toList) id then
      setProp paint ("line-color".toList) (.str (C .path))
    else if includesStr ("rail".toList) id || includesStr ("transit".toList) id then
      setProp paint ("line-color".toList) (.str (C .rail))
    else
      setProp paint ("line-color".toList)
        (.str (if casing then C .minorCasing else C .minor)))
  else if src = "boundary".toList && t = "line".toList then
    setProp (setProp paint ("line-color".toList) (.str (C .boundary)))
      ("line-opacity".toList) (.num (6/10))
  else paint

/-- One layer through the `.map` body: only the paint block changes. -/
def themeLayer (C : Palette) (layer : Layer) : Layer :=
  { layer with paint := themedPaint C layer }

structure StyleDoc where
  layers : List Layer
deriving DecidableEq

/-- `applyAppleStyle`: filter out symbol layers, retheme the rest. -/
def applyAppleStyle (raw : StyleDoc) (C : Palette) : StyleDoc :=
  { raw with
    layers := (raw.layers.filter
        (fun l => !(l.type = "symbol".toList : Bool))).map (themeLayer C) }

-- ═══════════════════════ Keyboard tick ═══════════════════════
-- The RAF `tick`: read the held-keys set, apply at most one `panBy`
-- (dx/dy summed from the four arrows, PAN = 5) and `zoomTo` commands
-- for the zoom keys (ZOOM = 0.03), all without animation.

/-- A command issued to the rendering surface during one tick. -/
inductive Cmd where
  | pan (dx dy : Int)
  | zoomTo (z : ℚ)
deriving DecidableEq

/-- The camera state mirrored from the rendering surface: pixel pan
offsets and the current zoom read by `map.getZoom()`. -/
structure MapState where
  x : Int
  y : Int
  zoom : ℚ
deriving DecidableEq

/-- `dy` accumulated from the vertical arrow keys (`PAN = 5`). -/
def panDy (keys : List (List Char)) : Int :=
  (if ("ArrowUp".toList) ∈ keys then -5 else 0)
    + (if ("ArrowDown".toList) ∈ keys then 5 else 0)

/-- `dx` accumulated from the horizontal arrow keys (`PAN = 5`). -/
def panDx (keys : List (List Char)) : Int :=
  (if ("ArrowLeft".toList) ∈ keys then -5 else 0)
    + (if ("ArrowRight".toList) ∈ keys then 5 else 0)

/-- One animation-frame tick: the commands it issues and the camera state
after them. The body is guarded by `keys.size > 0`; `panBy` runs only if
`dx || dy` is nonzero, and each of the two `zoomTo` calls reads the zoom
the surface has at that moment. -/
def tick (keys : List (List Char)) (m : MapState) : MapState × List Cmd :=
  if keys.isEmpty then (m, [])
  else
    let panStep :=
      if panDx keys ≠ 0 ∨ panDy keys ≠ 0 then
        ({ m with x := m.x + panDx keys, y := m.y + panDy keys },
         [Cmd.pan (panDx keys) (panDy keys)])
      else (m, ([] : List Cmd))
    let m1 := panStep.1
    let zoomIn :=
      if ("+".toList) ∈ keys ∨ ("=".toList) ∈ keys then
        ({ m1 with zoom := m1.zoom + 3/100 }, [Cmd.zoomTo (m1.zoom + 3/100)])
      else (m1, ([] : List Cmd))
    let m2 := zoomIn.1
    let zoomOut :=
      if ("-".toList) ∈ keys then
        ({ m2 with zoom := m2.zoom - 3/100 }, [Cmd.zoomTo (m2.zoom - 3/100)])
      else (m2, ([] : List Cmd))
    (zoomOut.1, panStep.2 ++ zoomIn.2 ++ zoomOut.2)

def countPan (cmds : List Cmd) : Nat :=
  cmds.countP (fun c => match c with | .pan _ _ => true | _ => false)

def countZoom (cmds : List Cmd) : Nat :=
  cmds.countP (fun c => match c with | .zoomTo _ => true | _ => false)

-- ═══════════════════════ Capture pipeline ═══════════════════════
-- `capture`: set the capturing flag, snapshot/crop the canvas, then in
-- the `toBlob` callback either bail out on a null blob or download and
-- flip the flags.

structure CaptureState where
  isCapturing : Bool
  captured : Bool
  downloads : Nat
deriving DecidableEq

/-- `setIsCapturing(true)` at the start of `capture`. -/
def captureStart (s : CaptureState) : CaptureState :=
  { s with isCapturing := true }

/-- The `out.toBlob` callback: `if (!blob) return;` else trigger the
download, clear the capturing flag and set the confirmation flag. -/
def blobCallback (s : CaptureState) (blob : Option Unit) : CaptureState :=
  match blob with
  | none => s
  | some _ =>
      { s with downloads := s.downloads + 1, isCapturing := false, captured := true }

/-- The capture pipeline from click to blob-callback completion, with the
blob encode's outcome supplied as input. -/
def captureRun (s : CaptureState) (blob : Option Unit) : CaptureState :=
  blobCallback (captureStart s) blob

/-- The crop-window arithmetic of `capture` (source canvas `w × h`,
physical crop size `phys`): origin clamped at 0, extent clamped to the
source size. -/
def cropRect (w h phys : ℚ) : ℚ × ℚ × ℚ × ℚ :=
  (max 0 ((w - phys) / 2), max 0 ((h - phys) / 2), min w phys, min h phys)

-- ═══════════════════════ Search debounce ═══════════════════════
-- The `[query]` effect: an empty-after-trim query clears results and
-- starts no timer; otherwise a 420 ms timer is started and any further
-- change cancels the previous timer.

/-- Run the debounce machinery over timestamped query changes (in time
order). `pending` is the live timer: its query and fire deadline. A
pending timer fires (issuing a fetch for its query) if its deadline is
reached before the next change; after the last change the surviving
timer, if any, fires. Returns the queries fetched, in order. -/
def debounceRun : List (Nat × List Char) → Option (List Char × Nat) → List (List Char)
  | [], some (q, _) => [q]
  | [], none => []
  | (t, q) :: rest, pending =>
      (match pending with
       | some (pq, d) => if d ≤ t then [pq] else []
       | none => ([] : List (List Char)))
      ++ debounceRun rest (if jsTrim q = [] then none else some (q, t + 420))

-- ═══════════════════════ Selection visibility ═══════════════════════
-- `handleMove`: outside an active fly-to, an active selection whose
-- coordinate left the viewport bounds is cleared (name and coordinate).

structure Selection where
  name : Option (List Char)
  coords : Option (ℚ × ℚ)
deriving DecidableEq

/-- One camera move event: whether a fly-to is in flight, and the
viewport's `getBounds().contains` test at the time of the event. -/
structure MoveEvent where
  flying : Bool
  inBounds : ℚ × ℚ → Bool

/-- `handleMove` (selection-tracking part). -/
def handleMove (s : Selection) (e : MoveEvent) : Selection :=
  if e.flying then s
  else
    match s.coords with
    | none => s
    | some c => if !(e.inBounds c) then { name := none, coords := none } else s

-- ═══════════════════════ Helper lemmas ═══════════════════════

theorem keys_nodup : COLOR_KEYS_IN_ORDER.Nodup := by decide

theorem foldl_setColor_not_mem (ps : List (ColorKey × List Char)) (p : Palette)
    (k : ColorKey) (hk : ∀ pr ∈ ps, pr.1 ≠ k) :
    (ps.foldl (fun acc kv => setColor acc kv.1 kv.2) p) k = p k := by
  induction ps generalizing p with
  | nil => rfl
  | cons a rest ih =>
    simp only [List.foldl_cons]
    rw [ih _ (fun pr hpr => hk pr (List.mem_cons_of_mem _ hpr))]
    have ha : a.1 ≠ k := hk a (List.mem_cons_self _ _)
    simp only [setColor]
    exact if_neg (fun h => ha h.symm)

theorem foldl_setColor_mem (ps : List (ColorKey × List Char)) (p : Palette)
    (k : ColorKey) (v : List Char) (hnd : (ps.map Prod.fst).Nodup)
    (hm : (k, v) ∈ ps) :
    (ps.foldl (fun acc kv => setColor acc kv.1 kv.2) p) k = v := by
  induction ps generalizing p with
  | nil => simp at hm
  | cons a rest ih =>
    simp only [List.map_cons, List.nodup_cons] at hnd
    rcases List.mem_cons.mp hm with heq | hmem
    · subst heq
      simp only [List.foldl_cons]
      rw [foldl_setColor_not_mem]
      · simp [setColor]
      · intro pr hpr h
        have hmm : pr.1 ∈ rest.map Prod.fst := List.mem_map_of_mem Prod.fst hpr
        rw [h] at hmm
        exact hnd.1 hmm
    · simp only [List.foldl_cons]
      exact ih _ hnd.2 hmem

theorem map_fst_zip_sub :
    ∀ (l1 : List ColorKey) (l2 : List (List Char)),
      List.Sublist ((l1.zip l2).map Prod.fst) l1
  | [], _ => by simp
  | _ :: _, [] => by simp
  | a :: t, b :: u => by
      simp only [List.zip_cons_cons, List.map_cons]
      exact (map_fst_zip_sub t u).cons₂ a

theorem exists_six_cons (x : List Char) (h : 6 ≤ x.length) :
    ∃ a b c d e f r, x = a :: b :: c :: d :: e :: f :: r := by
  rcases x with _ | ⟨a, _ | ⟨b, _ | ⟨c, _ | ⟨d, _ | ⟨e, _ | ⟨f, r⟩⟩⟩⟩⟩⟩
  · simp at h
  · simp at h
  · simp at h
  · simp at h
  · simp at h
  · simp at h
  · exact ⟨a, b, c, d, e, f, r, rfl⟩

theorem exists_three_cons (x : List Char) (h : 3 ≤ x.length) :
    ∃ a b c r, x = a :: b :: c :: r := by
  rcases x with _ | ⟨a, _ | ⟨b, _ | ⟨c, r⟩⟩⟩
  · simp at h
  · simp at h
  · simp at h
  · exact ⟨a, b, c, r, rfl⟩

theorem chunk6_shape (l : List Char) :
    ∀ c ∈ chunk6 l, c.length = 6 ∧ ∀ x ∈ c, x ∈ l := by
  induction l using chunk6.induct with
  | case1 d1 d2 d3 d4 d5 d6 rest ih =>
    intro c hc
    rw [show chunk6 (d1 :: d2 :: d3 :: d4 :: d5 :: d6 :: rest)
        = [d1, d2, d3, d4, d5, d6] :: chunk6 rest from rfl] at hc
    rcases List.mem_cons.mp hc with rfl | hmem
    · refine ⟨rfl, ?_⟩
      intro x hx
      simp only [List.mem_cons] at hx ⊢
      tauto
    · obtain ⟨hlen, hsub⟩ := ih c hmem
      refine ⟨hlen, ?_⟩
      intro x hx
      simp only [List.mem_cons]
      exact Or.inr (Or.inr (Or.inr (Or.inr (Or.inr (Or.inr (hsub x hx))))))
  | case2 t h =>
    intro c hc
    have hz : chunk6 t = [] := by
      rcases t with _ | ⟨a1, _ | ⟨a2, _ | ⟨a3, _ | ⟨a4, _ | ⟨a5, _ | ⟨a6, r⟩⟩⟩⟩⟩⟩
      · rfl
      · rfl
      · rfl
      · rfl
      · rfl
      · rfl
      · exact absurd rfl (h a1 a2 a3 a4 a5 a6 r)
    rw [hz] at hc
    simp at hc

theorem scanTokens_cons (c : Char) (rest : List Char) :
    scanTokens (c :: rest) =
      if c = '#' && hex6Ok rest then
        match rest with
        | d1 :: d2 :: d3 :: d4 :: d5 :: d6 :: r6 =>
            ['#', d1, d2, d3, d4, d5, d6] :: scanTokens r6
        | _ => []
      else if c = '#' && hex3Ok rest then
        match rest with
        | d1 :: d2 :: d3 :: r3 => ['#', d1, d2, d3] :: scanTokens r3
        | _ => []
      else scanTokens rest := by
  rw [scanTokens.eq_def]

theorem scanTokens_shape (l : List Char) :
    ∀ t ∈ scanTokens l, ∃ ds, t = '#' :: ds ∧
      (ds.length = 3 ∨ ds.length = 6) ∧ ds.all isHexChar = true := by
  induction l using scanTokens.induct with
  | case1 =>
    intro t ht
    simp [scanTokens] at ht
  | case2 c d1 d2 d3 d4 d5 d6 r6 hg ih =>
    intro t ht
    rw [scanTokens_cons, if_pos hg] at ht
    simp only [Bool.and_eq_true, decide_eq_true_eq] at hg
    obtain ⟨hc, h6⟩ := hg
    simp only [hex6Ok, Bool.and_eq_true, decide_eq_true_eq] at h6
    rcases List.mem_cons.mp ht with rfl | hmem
    · subst hc
      refine ⟨[d1, d2, d3, d4, d5, d6], rfl, Or.inr rfl, ?_⟩
      have := h6.1.2
      simpa using this
    · exact ih t hmem
  | case3 c x hshape hg =>
    exfalso
    simp only [Bool.and_eq_true, decide_eq_true_eq] at hg
    have h6 := hg.2
    simp only [hex6Ok, Bool.and_eq_true, decide_eq_true_eq] at h6
    obtain ⟨a, b, cc, d, e, f, r, rfl⟩ := exists_six_cons x h6.1.1
    exact hshape a b cc d e f r rfl
  | case4 c d1 d2 d3 r3 hg6 hg3 ih =>
    intro t ht
    rw [scanTokens_cons, if_neg hg6, if_pos hg3] at ht
    simp only [Bool.and_eq_true, decide_eq_true_eq] at hg3
    obtain ⟨hc, h3⟩ := hg3
    simp only [hex3Ok, Bool.and_eq_true, decide_eq_true_eq] at h3
    rcases List.mem_cons.mp ht with rfl | hmem
    · subst hc
      refine ⟨[d1, d2, d3], rfl, Or.inl rfl, ?_⟩
      have := h3.1.2
      simpa using this
    · exact ih t hmem
  | case5 c x hshape hg6 hg3 =>
    exfalso
    simp only [Bool.and_eq_true, decide_eq_true_eq] at hg3
    have h3 := hg3.2
    simp only [hex3Ok, Bool.and_eq_true, decide_eq_true_eq] at h3
    obtain ⟨a, b, cc, r, rfl⟩ := exists_three_cons x h3.1.1
    exact hshape a b cc r rfl
  | case6 c tail hg6 hg3 ih =>
    intro t ht
    rw [scanTokens_cons, if_neg hg6, if_neg hg3] at ht
    exact ih t ht

theorem isHexChar_toLowerAscii (c : Char) (h : isHexChar c = true) :
    isHexChar (toLowerAscii c) = true := by
  by_cases hA : c = 'A'
  · subst hA; decide
  by_cases hB : c = 'B'
  · subst hB; decide
  by_cases hC : c = 'C'
  · subst hC; decide
  by_cases hD : c = 'D'
  · subst hD; decide
  by_cases hE : c = 'E'
  · subst hE; decide
  by_cases hF : c = 'F'
  · subst hF; decide
  by_cases hG : c = 'G'
  · subst hG; exact absurd h (by decide)
  by_cases hH : c = 'H'
  · subst hH; exact absurd h (by decide)
  by_cases hI : c = 'I'
  · subst hI; exact absurd h (by decide)
  by_cases hJ : c = 'J'
  · subst hJ; exact absurd h (by decide)
  by_cases hK : c = 'K'
  · subst hK; exact absurd h (by decide)
  by_cases hL : c = 'L'
  · subst hL; exact absurd h (by decide)
  by_cases hM : c = 'M'
  · subst hM; exact absurd h (by decide)
  by_cases hN : c = 'N'
  · subst hN; exact absurd h (by decide)
  by_cases hO : c = 'O'
  · subst hO; exact absurd h (by decide)
  by_cases hP : c = 'P'
  · subst hP; exact absurd h (by decide)
  by_cases hQ : c = 'Q'
  · subst hQ; exact absurd h (by decide)
  by_cases hR : c = 'R'
  · subst hR; exact absurd h (by decide)
  by_cases hS : c = 'S'
  · subst hS; exact absurd h (by decide)
  by_cases hT : c = 'T'
  · subst hT; exact absurd h (by decide)
  by_cases hU : c = 'U'
  · subst hU; exact absurd h (by decide)
  by_cases hV : c = 'V'
  · subst hV; exact absurd h (by decide)
  by_cases hW : c = 'W'
  · subst hW; exact absurd h (by decide)
  by_cases hX : c = 'X'
  · subst hX; exact absurd h (by decide)
  by_cases hY : c = 'Y'
  · subst hY; exact absurd h (by decide)
  by_cases hZ : c = 'Z'
  · subst hZ; exact absurd h (by decide)
  have hid : toLowerAscii c = c := by
    unfold toLowerAscii
    rw [if_neg hA, if_neg hB, if_neg hC, if_neg hD, if_neg hE, if_neg hF, if_neg hG, if_neg hH, if_neg hI, if_neg hJ, if_neg hK, if_neg hL, if_neg hM, if_neg hN, if_neg hO, if_neg hP, if_neg hQ, if_neg hR, if_neg hS, if_neg hT, if_neg hU, if_neg hV, if_neg hW, if_neg hX, if_neg hY, if_neg hZ]
  rw [hid]
  exact h

/-- Shape of every value written by bulk apply: `#` + exactly 6 hex digits. -/
def isSixHexToken (v : List Char) : Bool :=
  match v with
  | '#' :: ds => decide (ds.length = 6) && ds.all isHexChar
  | _ => false

theorem hexesOf_six_hex (raw : List Char) (v : List Char) (hv : v ∈ hexesOf raw) :
    isSixHexToken v = true := by
  simp only [hexesOf] at hv
  by_cases hemp : ((scanTokens raw).map normalizeToken).isEmpty
  · rw [if_pos hemp] at hv
    obtain ⟨c, hc, rfl⟩ := List.mem_map.mp hv
    obtain ⟨hlen, hsub⟩ := chunk6_shape _ c hc
    simp only [isSixHexToken, lowerStr]
    rw [Bool.and_eq_true]
    constructor
    · simp [hlen]
    · rw [List.all_eq_true]
      intro x hx
      obtain ⟨y, hy, rfl⟩ := List.mem_map.mp hx
      have hyhex : isHexChar y = true := (List.mem_filter.mp (hsub y hy)).2
      exact isHexChar_toLowerAscii y hyhex
  · rw [if_neg hemp] at hv
    obtain ⟨t, ht, rfl⟩ := List.mem_map.mp hv
    obtain ⟨ds, rfl, hlen, hhex⟩ := scanTokens_shape raw t ht
    rcases hlen with h3 | h6
    · obtain ⟨a, b, c, habc⟩ := List.length_eq_three.mp h3
      subst habc
      simp only [List.all_cons, Bool.and_eq_true] at hhex
      simp [normalizeToken, isSixHexToken, hhex.1, hhex.2.1, hhex.2.2.1]
    · obtain ⟨a, b, c, d, e, f, r, habc⟩ := exists_six_cons ds (by omega)
      subst habc
      have hr : r = [] := by
        simp only [List.length_cons] at h6
        exact List.eq_nil_of_length_eq_zero (by omega)
      subst hr
      simp only [List.all_cons, List.all_nil, Bool.and_eq_true] at hhex
      simp only [normalizeToken, List.map_cons, List.map_nil]
      rw [show toLowerAscii '#' = '#' from by decide]
      simp only [isSixHexToken, List.length_cons, List.all_cons, Bool.and_eq_true]
      refine ⟨by simp, ?_⟩
      constructor
      · exact isHexChar_toLowerAscii a hhex.1
      constructor
      · exact isHexChar_toLowerAscii b hhex.2.1
      constructor
      · exact isHexChar_toLowerAscii c hhex.2.2.1
      constructor
      · exact isHexChar_toLowerAscii d hhex.2.2.2.1
      constructor
      · exact isHexChar_toLowerAscii e hhex.2.2.2.2.1
      refine ⟨isHexChar_toLowerAscii f hhex.2.2.2.2.2.1, by decide⟩

-- ═══════════════════════ Concrete instances for witnesses ═══════════════════════

/-- An aeroway fill layer carrying a raw paint property. -/
def aeroLayerCx : Layer :=
  { id := "aeroway-area".toList, sourceLayer := "aeroway".toList,
    type := "fill".toList,
    paint := [("fill-opacity".toList, PaintValue.num (1/2))] }

/-- A background layer carrying a raw paint property. -/
def bgLayerW : Layer :=
  { id := "background".toList, sourceLayer := [],
    type := "background".toList,
    paint := [("background-color".toList, PaintValue.str ("#000000".toList))] }

/-- A water fill layer carrying a raw paint property. -/
def waterLayerW : Layer :=
  { id := "water".toList, sourceLayer := "water".toList,
    type := "fill".toList,
    paint := [("fill-opacity".toList, PaintValue.num (4/10))] }

/-- A building fill layer carrying a raw paint property. -/
def buildingLayerW : Layer :=
  { id := "building".toList, sourceLayer := "building".toList,
    type := "fill".toList,
    paint := [("fill-opacity".toList, PaintValue.num (3/10))] }

/-- A symbol (label) layer. -/
def symLayerW : Layer :=
  { id := "poi-label".toList, sourceLayer := "poi".toList,
    type := "symbol".toList, paint := [] }

/-- A two-layer style document containing a symbol layer. -/
def symbolDocW : StyleDoc := { layers := [symLayerW, bgLayerW] }

/-- A non-flying camera move whose bounds test reports every point outside. -/
def moveEventW : MoveEvent := { flying := false, inBounds := fun _ => false }

-- ═══════════════════════ Claims ═══════════════════════

/-- C1 counterexample: the aeroway fill branch does NOT discard the raw
paint — a raw `fill-opacity` property survives into the themed output, so
the claim that every raw paint property is discarded by the aeroway branch
is false. -/
theorem aeroway_keeps_raw_paint :
    aeroLayerCx.type = "fill".toList ∧
    lowerStr aeroLayerCx.sourceLayer = "aeroway".toList ∧
    ("fill-opacity".toList, PaintValue.num (1/2)) ∈ aeroLayerCx.paint ∧
    ("fill-opacity".toList, PaintValue.num (1/2))
      ∈ themedPaint DEFAULT_COLORS aeroLayerCx := by
  refine ⟨rfl, by decide, List.mem_singleton.mpr rfl, ?_⟩
  have h : themedPaint DEFAULT_COLORS aeroLayerCx
      = ("fill-opacity".toList, PaintValue.num (1/2))
        :: [("fill-color".toList, PaintValue.str ("#dcd8cc".toList))] := by rfl
  rw [h]
  exact List.mem_cons_self _ _

/-- C1 (amended): the branches for background, water fill, and building
fill replace the paint block with exactly the theme-set properties
(palette colour, plus fixed opacity where applicable), discarding every
raw paint property; the aeroway fill branch instead preserves the raw
paint and only overrides the fill colour. (The hypotheses characterise a
layer actually taken by the branch in question: a building or aeroway
layer whose lowercased id starts with "park" is taken by the earlier park
branch instead.) -/
theorem full_replacement_branches (layer : Layer) (C : Palette) :
    (layer.type = "background".toList →
      themedPaint C layer
        = [("background-color".toList, PaintValue.str (C .bg))]) ∧
    (lowerStr layer.sourceLayer = "water".toList → layer.type = "fill".toList →
      themedPaint C layer
        = [("fill-color".toList, PaintValue.str (C .water)),
           ("fill-opacity".toList, PaintValue.num 1)]) ∧
    (lowerStr layer.sourceLayer = "building".toList →
      layer.type = "fill".toList →
      ¬ ("park".toList <+: lowerStr layer.id) →
      themedPaint C layer
        = [("fill-color".toList, PaintValue.str (C .building)),
           ("fill-opacity".toList, PaintValue.num 1)]) ∧
    (lowerStr layer.sourceLayer = "aeroway".toList →
      layer.type = "fill".toList →
      ¬ ("park".toList <+: lowerStr layer.id) →
      themedPaint C layer
        = setProp layer.paint ("fill-color".toList)
            (PaintValue.str (C .aeroway))) := by
  refine ⟨?_, ?_, ?_, ?_⟩
  · intro h
    simp [themedPaint, h]
  · intro h1 h2
    simp [themedPaint, h1, h2]
  · intro h1 h2 h3
    simp [themedPaint, h1, h2]
    exact fun h => absurd h h3
  · intro h1 h2 h3
    simp [themedPaint, h1, h2]
    exact fun h => absurd h h3

/-- C1 witness: the four branch characterisations evaluated at concrete
layers, each carrying raw paint. -/
theorem full_replacement_branches_witness :
    themedPaint DEFAULT_COLORS bgLayerW
      = [("background-color".toList, PaintValue.str (DEFAULT_COLORS ColorKey.bg))] ∧
    themedPaint DEFAULT_COLORS waterLayerW
      = [("fill-color".toList, PaintValue.str (DEFAULT_COLORS ColorKey.water)),
         ("fill-opacity".toList, PaintValue.num 1)] ∧
    themedPaint DEFAULT_COLORS buildingLayerW
      = [("fill-color".toList, PaintValue.str (DEFAULT_COLORS ColorKey.building)),
         ("fill-opacity".toList, PaintValue.num 1)] ∧
    themedPaint DEFAULT_COLORS aeroLayerCx
      = setProp aeroLayerCx.paint ("fill-color".toList)
          (PaintValue.str (DEFAULT_COLORS ColorKey.aeroway)) :=
  ⟨(full_replacement_branches bgLayerW DEFAULT_COLORS).1 rfl,
   (full_replacement_branches waterLayerW DEFAULT_COLORS).2.1 (by decide) rfl,
   (full_replacement_branches buildingLayerW DEFAULT_COLORS).2.2.1
     (by decide) rfl (by decide),
   (full_replacement_branches aeroLayerCx DEFAULT_COLORS).2.2.2
     (by decide) rfl (by decide)⟩

/-- C2: the code's blob callback starts with `if (!blob) return;`, so when
the canvas produces no blob the capturing flag is left set (the Capture
button stays disabled forever) and no download is triggered — the claim
(and spec) say the flag is cleared, which the code does not do. -/
theorem capture_null_blob_keeps_flag :
    captureRun { isCapturing := false, captured := false, downloads := 0 } none
      = { isCapturing := true, captured := false, downloads := 0 } := rfl

/-- C3 counterexample: with both "+" and "-" held, a single tick issues
two zoom commands, so "at most one zoom command per tick" is false. -/
theorem tick_two_zoom_commands :
    countZoom (tick ["+".toList, "-".toList] { x := 0, y := 0, zoom := 5 }).2
      = 2 := by decide

/-- C3 (amended): a single tick issues at most one pan command and at most
two zoom commands; it issues two zoom commands exactly when a zoom-in key
("+" or "=") and the zoom-out key "-" are held simultaneously. -/
theorem tick_command_counts (keys : List (List Char)) (m : MapState) :
    countPan (tick keys m).2 ≤ 1 ∧
    countZoom (tick keys m).2 ≤ 2 ∧
    (countZoom (tick keys m).2 = 2 ↔
      (("+".toList ∈ keys ∨ "=".toList ∈ keys) ∧ "-".toList ∈ keys)) := by
  by_cases h0 : keys.isEmpty
  · have hnil : keys = [] := by simpa using h0
    subst hnil
    simp [tick, countPan, countZoom]
  · by_cases hpan : (panDx keys ≠ 0 ∨ panDy keys ≠ 0) <;>
    by_cases hzi : ((['+'] : List Char) ∈ keys ∨ (['='] : List Char) ∈ keys) <;>
    by_cases hzo : ((['-'] : List Char) ∈ keys) <;>
    simp [tick, h0, hpan, hzi, hzo, countPan, countZoom]

/-- C4: serializing the default palette (fixed key order, space-separated)
and bulk-applying the resulting string reproduces the default palette at
every key. -/
theorem bulk_roundtrip_default (k : ColorKey) :
    applyBulkString DEFAULT_COLORS (serializePalette DEFAULT_COLORS) k
      = DEFAULT_COLORS k := by
  revert k
  decide

/-- C5: no layer of type "symbol" appears in the themed output, for any
input document and palette. -/
theorem no_symbol_layers (doc : StyleDoc) (C : Palette) :
    ∀ l ∈ (applyAppleStyle doc C).layers, l.type ≠ "symbol".toList := by
  intro l hl
  simp only [applyAppleStyle, List.mem_map, List.mem_filter] at hl
  obtain ⟨a, ⟨_, ha⟩, rfl⟩ := hl
  have hne : a.type ≠ "symbol".toList := by simpa using ha
  exact hne

/-- C5 witness: the theorem applied to a concrete document containing a
symbol layer and a background layer. -/
theorem no_symbol_layers_witness :
    (themeLayer DEFAULT_COLORS bgLayerW).type ≠ "symbol".toList :=
  no_symbol_layers symbolDocW DEFAULT_COLORS
    (themeLayer DEFAULT_COLORS bgLayerW) (by decide)

/-- C6: a point update through the hex guard stores a valid `#RGB` or
`#RRGGBB` string exactly as given (the guard applies no rewriting), and a
string failing the pattern leaves the whole palette unchanged. -/
theorem set_hex_valid_or_noop (p : Palette) (k : ColorKey) (v : List Char) :
    (isValidHex v = true → handleHexUpdate p k v k = v) ∧
    (isValidHex v = false → handleHexUpdate p k v = p) := by
  constructor
  · intro h
    simp [handleHexUpdate, h, setColor]
  · intro h
    simp [handleHexUpdate, h]

/-- C6 witness: a valid 6-digit update is stored and readable; a
truncated hex string is a complete no-op. -/
theorem set_hex_valid_or_noop_witness :
    handleHexUpdate DEFAULT_COLORS ColorKey.bg ("#a1b2c3".toList) ColorKey.bg
      = "#a1b2c3".toList ∧
    handleHexUpdate DEFAULT_COLORS ColorKey.bg ("#a1b2".toList)
      = DEFAULT_COLORS :=
  ⟨(set_hex_valid_or_noop DEFAULT_COLORS ColorKey.bg ("#a1b2c3".toList)).1
      (by decide),
   (set_hex_valid_or_noop DEFAULT_COLORS ColorKey.bg ("#a1b2".toList)).2
      (by decide)⟩

/-- C7: bulk apply with zero extracted tokens is a no-op; with N tokens,
the first min(N, 26) keys in the fixed order receive the tokens in order
and every later key keeps its previous value. -/
theorem bulk_apply_positional (raw : List Char) (p : Palette) :
    (hexesOf raw = [] → applyBulkString p raw = p) ∧
    (∀ i (ha : i < (hexesOf raw).length) (hb : i < COLOR_KEYS_IN_ORDER.length),
      applyBulkString p raw (COLOR_KEYS_IN_ORDER[i]) = (hexesOf raw)[i]) ∧
    (∀ i (hb : i < COLOR_KEYS_IN_ORDER.length), (hexesOf raw).length ≤ i →
      applyBulkString p raw (COLOR_KEYS_IN_ORDER[i])
        = p (COLOR_KEYS_IN_ORDER[i])) := by
  refine ⟨?_, ?_, ?_⟩
  · intro h
    simp [applyBulkString, h]
  · intro i ha hb
    have hne : ¬ (hexesOf raw).isEmpty = true := by
      rw [List.isEmpty_iff]
      intro h
      rw [h] at ha
      simp at ha
    simp only [applyBulkString]
    rw [if_neg hne]
    apply foldl_setColor_mem
    · exact List.Nodup.sublist (map_fst_zip_sub _ _) keys_nodup
    · rw [List.mem_iff_getElem]
      have hz : i < (COLOR_KEYS_IN_ORDER.zip
          ((hexesOf raw).take COLOR_KEYS_IN_ORDER.length)).length := by
        rw [List.length_zip, List.length_take]
        simp only [lt_inf_iff]
        omega
      refine ⟨i, hz, ?_⟩
      rw [List.getElem_zip, List.getElem_take]
  · intro i hb hlen
    by_cases hemp : (hexesOf raw).isEmpty = true
    · rw [List.isEmpty_iff] at hemp
      simp [applyBulkString, hemp]
    · simp only [applyBulkString]
      rw [if_neg hemp]
      apply foldl_setColor_not_mem
      intro pr hpr h
      obtain ⟨j, hj, hpr_eq⟩ := List.mem_iff_getElem.mp hpr
      rw [List.length_zip, List.length_take] at hj
      have hj2 : j < COLOR_KEYS_IN_ORDER.length := by
        simp only [lt_inf_iff] at hj
        omega
      have hfst : pr.1 = COLOR_KEYS_IN_ORDER[j] := by
        rw [← hpr_eq, List.getElem_zip]
      have hij : COLOR_KEYS_IN_ORDER[j] = COLOR_KEYS_IN_ORDER[i] := by
        rw [← hfst, h]
      have := (keys_nodup.getElem_inj_iff).mp hij
      simp only [lt_inf_iff] at hj
      omega

/-- C7 witness: two tokens update the first two keys in order and leave
the third unchanged. -/
theorem bulk_apply_positional_witness :
    applyBulkString DEFAULT_COLORS ("#111 #222222".toList) ColorKey.bg
      = "#111111".toList ∧
    applyBulkString DEFAULT_COLORS ("#111 #222222".toList) ColorKey.waterLine
      = DEFAULT_COLORS ColorKey.waterLine := by
  constructor
  · have h := (bulk_apply_positional ("#111 #222222".toList) DEFAULT_COLORS).2.1 0
      (by decide) (by decide)
    exact h.trans (by decide)
  · exact (bulk_apply_positional ("#111 #222222".toList) DEFAULT_COLORS).2.2 2
      (by decide) (by decide)

/-- Under the "every change arrives before the previous deadline" chain
condition, no intermediate timer ever fires: only the pending timer
surviving the last change can fire. -/
theorem debounceRun_chain :
    ∀ (changes : List (Nat × List Char)) (pending : Option (List Char × Nat))
      (hne : changes ≠ []),
      (∀ q d, pending = some (q, d) → (changes.head hne).1 < d) →
      List.Chain' (fun a b => b.1 < a.1 + 420) changes →
      debounceRun changes pending =
        if jsTrim (changes.getLast hne).2 = [] then []
        else [(changes.getLast hne).2]
  | [], _, hne, _, _ => absurd rfl hne
  | [(t, q)], pending, _, hp, _ => by
      rcases pending with _ | ⟨pq, d⟩
      · by_cases hq : jsTrim q = [] <;> simp [debounceRun, hq]
      · have ht : ¬ d ≤ t := by
          have := hp pq d rfl
          simp only [List.head_cons] at this
          omega
        by_cases hq : jsTrim q = [] <;> simp [debounceRun, hq, ht]
  | (t, q) :: c2 :: rest, pending, _, hp, hc => by
      have hc2 : c2.1 < t + 420 := (List.chain'_cons.mp hc).1
      have hctail := (List.chain'_cons.mp hc).2
      have hrec := debounceRun_chain (c2 :: rest)
        (if jsTrim q = [] then none else some (q, t + 420))
        (List.cons_ne_nil _ _)
        (by
          intro q2 d2 hsome
          simp only [List.head_cons]
          by_cases hq : jsTrim q = []
          · simp [hq] at hsome
          · simp [hq] at hsome
            obtain ⟨-, hd⟩ := hsome
            omega)
        hctail
      rcases pending with _ | ⟨pq, d⟩
      · calc debounceRun ((t, q) :: c2 :: rest) none
            = debounceRun (c2 :: rest)
                (if jsTrim q = [] then none else some (q, t + 420)) := rfl
          _ = _ := by rw [hrec]; simp [List.getLast_cons]
      · have hdt : ¬ d ≤ t := by
          have := hp pq d rfl
          simp only [List.head_cons] at this
          omega
        calc debounceRun ((t, q) :: c2 :: rest) (some (pq, d))
            = (if d ≤ t then [pq] else []) ++ debounceRun (c2 :: rest)
                (if jsTrim q = [] then none else some (q, t + 420)) := rfl
          _ = debounceRun (c2 :: rest)
                (if jsTrim q = [] then none else some (q, t + 420)) := by
              rw [if_neg hdt, List.nil_append]
          _ = _ := by rw [hrec]; simp [List.getLast_cons]

/-- C8 counterexample: a change to "a" followed, within the 420 ms
window, by a change to the empty query issues NO fetch at all — not
"exactly one fetch for the final text". -/
theorem debounce_blank_final_no_fetch :
    List.Chain' (fun a b => b.1 < a.1 + 420)
      [((0 : Nat), "a".toList), (100, ([] : List Char))] ∧
    debounceRun [((0 : Nat), "a".toList), (100, ([] : List Char))] none = [] := by
  constructor
  · simp [List.chain'_cons]
  · decide

/-- C8 (amended): for a nonempty sequence of query changes in which each
change arrives strictly before the previous change's 420 ms debounce
deadline, exactly one fetch is issued, for the final query text — unless
the final text trims to empty, in which case no fetch is issued at all. -/
theorem debounce_single_fetch_final (changes : List (Nat × List Char))
    (hne : changes ≠ [])
    (hc : List.Chain' (fun a b => b.1 < a.1 + 420) changes) :
    debounceRun changes none =
      if jsTrim (changes.getLast hne).2 = [] then []
      else [(changes.getLast hne).2] :=
  debounceRun_chain changes none hne (fun _ _ h => Option.noConfusion h) hc

/-- C8 witness: two rapid changes, "a" then "ab", yield exactly one fetch
for "ab". -/
theorem debounce_single_fetch_final_witness :
    debounceRun [((0 : Nat), "a".toList), (100, "ab".toList)] none
      = ["ab".toList] := by
  have h := debounce_single_fetch_final
    [((0 : Nat), "a".toList), (100, "ab".toList)] (by decide)
    (by simp [List.chain'_cons])
  exact h.trans (by decide)

/-- C9: a camera move that is not part of a fly-to, with an active
selection whose coordinate fails the bounds test, clears both selection
name and coordinate; and from the cleared state, no sequence of further
moves ever restores a selection. -/
theorem move_clears_selection_one_way (s : Selection) (e : MoveEvent)
    (c : ℚ × ℚ) (hf : e.flying = false) (hcoord : s.coords = some c)
    (hb : e.inBounds c = false) :
    handleMove s e = { name := none, coords := none } ∧
    (∀ events : List MoveEvent,
      events.foldl handleMove { name := none, coords := none }
        = { name := none, coords := none }) := by
  constructor
  · simp [handleMove, hf, hcoord, hb]
  · intro events
    induction events with
    | nil => rfl
    | cons e2 rest ih =>
      have hstep : handleMove { name := none, coords := none } e2
          = { name := none, coords := none } := by
        unfold handleMove
        split <;> rfl
      rw [List.foldl_cons, hstep, ih]

/-- C9 witness: a concrete out-of-bounds move clears the selection, and a
further move leaves the cleared state cleared. -/
theorem move_clears_selection_one_way_witness :
    handleMove
      { name := some ("Berlin".toList), coords := some ((13 : ℚ), (52 : ℚ)) }
      moveEventW
      = { name := none, coords := none } ∧
    [moveEventW].foldl handleMove { name := none, coords := none }
      = { name := none, coords := none } := by
  have h := move_clears_selection_one_way
    { name := some ("Berlin".toList), coords := some ((13 : ℚ), (52 : ℚ)) }
    moveEventW ((13 : ℚ), (52 : ℚ)) rfl rfl rfl
  exact ⟨h.1, h.2 [moveEventW]⟩

/-- C10: every value bulk apply writes is `#` followed by exactly six hex
digits; a 6-digit token and a fallback chunk are stored lowercased, but a
3-digit token is expanded by doubling digits without lowercasing, so
"#FFF" stores the uppercase "#FFFFFF". -/
theorem bulk_values_shape_and_case :
    (∀ raw v, v ∈ hexesOf raw → isSixHexToken v = true) ∧
    hexesOf ("#FFF".toList) = ["#FFFFFF".toList] ∧
    hexesOf ("#ABCDEF".toList) = ["#abcdef".toList] ∧
    hexesOf ("zzABCDEFzz".toList) = ["#abcdef".toList] :=
  ⟨fun raw v hv => hexesOf_six_hex raw v hv, by decide, by decide, by decide⟩

/-- C10 witness: the six-hex-shape invariant applied to the value that the
input "#FFF" produces. -/
theorem bulk_values_shape_and_case_witness :
    isSixHexToken ("#FFFFFF".toList) = true :=
  bulk_values_shape_and_case.1 ("#FFF".toList) ("#FFFFFF".toList) (by decide)
